import Mathlib

/-!
# Verification of a CHIP-8 disassembler

Shallow embedding of the disassembler library (`src/lib.rs`) of a CHIP-8
ROM disassembler written in Rust.  Machine integers (`u8`, `u16`) are
modelled as `Nat` together with the bounds they satisfy in the program
(`< 256`, `< 65536`); the Rust bit operations `inst >> 12`, `inst & 0x0FFF`,
`(inst & 0x0F00) >> 8`, `inst & 0x00FF`, `(inst & 0x00F0) >> 4` and
`inst & 0x000F` are embedded as the arithmetically equal `inst / 4096`,
`inst % 4096`, `inst / 256 % 16`, `inst % 256`, `inst / 16 % 16` and
`inst % 16`.  Rust `String`s are Lean `String`s; `format!("{:X}", n)` and
its zero-padded variants `format!("{:0>kX}", n)` are modelled by `toHex`
and `padHex k` below (uppercase hexadecimal, most significant digit first,
left-padded with `'0'` to the requested width).
-/

/-- Uppercase hexadecimal digit for a value `n < 16`
(`0`–`9` then `A`–`F`), as produced by Rust's `{:X}` format. -/
def hexDigit (n : Nat) : Char :=
  if n < 10 then Char.ofNat (48 + n) else Char.ofNat (55 + n)

/-- Accumulator-style digit extraction for uppercase hexadecimal
formatting; the first argument is fuel (always sufficient because callers
pass the number itself). -/
def hexCharsAux : Nat → Nat → List Char → List Char
  | 0, _, acc => acc
  | fuel + 1, n, acc =>
    if n = 0 then acc
    else hexCharsAux fuel (n / 16) (hexDigit (n % 16) :: acc)

/-- The uppercase hexadecimal digits of `n`, most significant first,
with no leading zeros (`0` itself renders as `"0"`), as produced by
Rust's `{:X}` format. -/
def hexChars (n : Nat) : List Char :=
  if n = 0 then ['0'] else hexCharsAux n n []

/-- Rust `format!("{:X}", n)`: uppercase hexadecimal, no padding. -/
def toHex (n : Nat) : String :=
  ⟨hexChars n⟩

/-- Rust `format!("{:0>wX}", n)`: uppercase hexadecimal, left-padded
with `'0'` to width `w`. -/
def padHex (w n : Nat) : String :=
  ⟨List.replicate (w - (hexChars n).length) '0' ++ hexChars n⟩

/-- Embedding of `convert_instruction` (`src/lib.rs`, lines 142–287):
given a `u16` CHIP-8 instruction word, produce its assembly string.
The guard chain is transcribed in source order; early `return`s become
nested `if … then … else`. -/
def convert_instruction (inst : Nat) : String :=
  -- instructions with 16-bit opcodes and no arguments
  if inst = 0x00E0 then "CLS" else
  if inst = 0x00EE then "RET" else
  -- instructions with opcode for first 4 bits, single argument for bottom 12
  if inst / 4096 = 0 then "SYS 0x" ++ padHex 3 (inst % 4096) else
  if inst / 4096 = 1 then "JP 0x" ++ padHex 3 (inst % 4096) else
  if inst / 4096 = 2 then "CALL 0x" ++ padHex 3 (inst % 4096) else
  if inst / 4096 = 0xA then "LD I, 0x" ++ padHex 3 (inst % 4096) else
  if inst / 4096 = 0xB then "JP V0, 0x" ++ padHex 3 (inst % 4096) else
  -- instructions with opcode for first 4 bits, one 4-bit arg, one 8-bit arg
  if inst / 4096 = 3 then "SE V" ++ toHex (inst / 256 % 16) ++ ", 0x" ++ padHex 2 (inst % 256) else
  if inst / 4096 = 4 then "SNE V" ++ toHex (inst / 256 % 16) ++ ", 0x" ++ padHex 2 (inst % 256) else
  if inst / 4096 = 6 then "LD V" ++ toHex (inst / 256 % 16) ++ ", 0x" ++ padHex 2 (inst % 256) else
  if inst / 4096 = 7 then "ADD V" ++ toHex (inst / 256 % 16) ++ ", 0x" ++ padHex 2 (inst % 256) else
  if inst / 4096 = 0xC then "RND V" ++ toHex (inst / 256 % 16) ++ ", 0x" ++ padHex 2 (inst % 256) else
  -- instructions with opcode for first 4 and last 4 bits, two 4-bit args
  if inst / 4096 = 5 ∧ inst % 16 = 0 then "SE V" ++ toHex (inst / 256 % 16) ++ ", V" ++ toHex (inst / 16 % 16) else
  if inst / 4096 = 8 ∧ inst % 16 = 0 then "LD V" ++ toHex (inst / 256 % 16) ++ ", V" ++ toHex (inst / 16 % 16) else
  if inst / 4096 = 8 ∧ inst % 16 = 1 then "OR V" ++ toHex (inst / 256 % 16) ++ ", V" ++ toHex (inst / 16 % 16) else
  if inst / 4096 = 8 ∧ inst % 16 = 2 then "AND V" ++ toHex (inst / 256 % 16) ++ ", V" ++ toHex (inst / 16 % 16) else
  if inst / 4096 = 8 ∧ inst % 16 = 3 then "XOR V" ++ toHex (inst / 256 % 16) ++ ", V" ++ toHex (inst / 16 % 16) else
  if inst / 4096 = 8 ∧ inst % 16 = 4 then "ADD V" ++ toHex (inst / 256 % 16) ++ ", V" ++ toHex (inst / 16 % 16) else
  if inst / 4096 = 8 ∧ inst % 16 = 5 then "SUB V" ++ toHex (inst / 256 % 16) ++ ", V" ++ toHex (inst / 16 % 16) else
  if inst / 4096 = 8 ∧ inst % 16 = 7 then "SUBN V" ++ toHex (inst / 256 % 16) ++ ", V" ++ toHex (inst / 16 % 16) else
  if inst / 4096 = 9 ∧ inst % 16 = 0 then "SNE V" ++ toHex (inst / 256 % 16) ++ ", V" ++ toHex (inst / 16 % 16) else
  -- the second 4-bit arg is ignored for these two
  if inst / 4096 = 8 ∧ inst % 16 = 6 then "SHR V" ++ toHex (inst / 256 % 16) else
  if inst / 4096 = 8 ∧ inst % 16 = 0xE then "SHL V" ++ toHex (inst / 256 % 16) else
  -- instructions with opcode for first 4 bits, three 4-bit args
  if inst / 4096 = 0xD then "DRW V" ++ toHex (inst / 256 % 16) ++ ", V" ++ toHex (inst / 16 % 16) ++ ", 0x" ++ toHex (inst % 16) else
  -- instructions with opcode for first 4 bits and last 8 bits, one 4-bit arg
  if inst / 4096 = 0xE ∧ inst % 256 = 0x9E then "SKP V" ++ toHex (inst / 256 % 16) else
  if inst / 4096 = 0xE ∧ inst % 256 = 0xA1 then "SKNP V" ++ toHex (inst / 256 % 16) else
  if inst / 4096 = 0xF ∧ inst % 256 = 0x07 then "LD V" ++ toHex (inst / 256 % 16) ++ ", DT" else
  if inst / 4096 = 0xF ∧ inst % 256 = 0x0A then "LD V" ++ toHex (inst / 256 % 16) ++ ", K" else
  if inst / 4096 = 0xF ∧ inst % 256 = 0x15 then "LD DT, v" ++ toHex (inst / 256 % 16) else
  if inst / 4096 = 0xF ∧ inst % 256 = 0x18 then "LD ST, V" ++ toHex (inst / 256 % 16) else
  if inst / 4096 = 0xF ∧ inst % 256 = 0x1E then "ADD I, V" ++ toHex (inst / 256 % 16) else
  if inst / 4096 = 0xF ∧ inst % 256 = 0x29 then "LD F, V" ++ toHex (inst / 256 % 16) else
  if inst / 4096 = 0xF ∧ inst % 256 = 0x33 then "LD B, V" ++ toHex (inst / 256 % 16) else
  if inst / 4096 = 0xF ∧ inst % 256 = 0x55 then "LD [I], V" ++ toHex (inst / 256 % 16) else
  if inst / 4096 = 0xF ∧ inst % 256 = 0x65 then "LD V" ++ toHex (inst / 256 % 16) ++ ", [I]" else
  -- instruction not found, probably a bitmap graphic or other data
  "0x" ++ padHex 4 inst

/-- Embedding of `.chunks(2)` on the byte vector (`src/lib.rs`, line 116):
consecutive non-overlapping chunks of size 2; an odd trailing byte forms a
final singleton chunk, exactly as Rust's `slice::chunks`. -/
def chunksTwo : List Nat → List (List Nat)
  | [] => []
  | [b] => [[b]]
  | b1 :: b2 :: rest => [b1, b2] :: chunksTwo rest

/-- Embedding of the chunk-to-word closure (`src/lib.rs`, lines 118–126):
a two-byte chunk `[b1, b2]` becomes `((b1 as u16) << 8) | (b2 as u16)`;
any other shape is the `unreachable!` arm (given the default value `0`
here; the length check in `disassemble` guarantees it is never taken). -/
def combine_chunk : List Nat → Nat
  | [b1, b2] => b1 <<< 8 ||| b2
  | _ => 0

/-- The word-framing stage of `disassemble` (`src/lib.rs`, lines 114–126):
group the bytes into pairs and combine each pair into a 16-bit word.
The spec calls this stage `frame`. -/
def frame (bytes : List Nat) : List Nat :=
  (chunksTwo bytes).map combine_chunk

/-- Embedding of `disassemble` (`src/lib.rs`, lines 105–137): validate the
byte buffer, frame it into 16-bit words, convert each word to its assembly
string, and fold the strings into one output with `'\n'` pushed after each
entry.  The `Err(&'static str)` result type is embedded as
`Except String String` carrying the exact error messages of the source. -/
def disassemble (assembled_bytes : List Nat) : Except String String :=
  if assembled_bytes.isEmpty then
    Except.error "Error parsing rom: empty rom"
  else if assembled_bytes.length % 2 ≠ 0 then
    Except.error "Error parsing rom: uneven number of bytes"
  else
    Except.ok (((frame assembled_bytes).map convert_instruction).foldl
      (fun acc inst => (acc ++ inst).push '\n') "")

/-- The error message produced for an empty buffer; the spec names this
condition `EmptyInput`. -/
def emptyInputMsg : String := "Error parsing rom: empty rom"

/-- The error message produced for an odd-length buffer; the spec names
this condition `OddLength`. -/
def oddLengthMsg : String := "Error parsing rom: uneven number of bytes"


/-- A decoder variant that tests the top-nibble-0 `SYS` pattern before the
exact matches `0x00E0` and `0x00EE`, the reordering considered by the
mutual-exclusivity claim; the rest of the guard chain is unchanged. -/
def convert_instruction_alt (inst : Nat) : String :=
  if inst / 4096 = 0 then "SYS 0x" ++ padHex 3 (inst % 4096) else
  if inst = 0x00E0 then "CLS" else
  if inst = 0x00EE then "RET" else
  if inst / 4096 = 1 then "JP 0x" ++ padHex 3 (inst % 4096) else
  if inst / 4096 = 2 then "CALL 0x" ++ padHex 3 (inst % 4096) else
  if inst / 4096 = 0xA then "LD I, 0x" ++ padHex 3 (inst % 4096) else
  if inst / 4096 = 0xB then "JP V0, 0x" ++ padHex 3 (inst % 4096) else
  if inst / 4096 = 3 then "SE V" ++ toHex (inst / 256 % 16) ++ ", 0x" ++ padHex 2 (inst % 256) else
  if inst / 4096 = 4 then "SNE V" ++ toHex (inst / 256 % 16) ++ ", 0x" ++ padHex 2 (inst % 256) else
  if inst / 4096 = 6 then "LD V" ++ toHex (inst / 256 % 16) ++ ", 0x" ++ padHex 2 (inst % 256) else
  if inst / 4096 = 7 then "ADD V" ++ toHex (inst / 256 % 16) ++ ", 0x" ++ padHex 2 (inst % 256) else
  if inst / 4096 = 0xC then "RND V" ++ toHex (inst / 256 % 16) ++ ", 0x" ++ padHex 2 (inst % 256) else
  if inst / 4096 = 5 ∧ inst % 16 = 0 then "SE V" ++ toHex (inst / 256 % 16) ++ ", V" ++ toHex (inst / 16 % 16) else
  if inst / 4096 = 8 ∧ inst % 16 = 0 then "LD V" ++ toHex (inst / 256 % 16) ++ ", V" ++ toHex (inst / 16 % 16) else
  if inst / 4096 = 8 ∧ inst % 16 = 1 then "OR V" ++ toHex (inst / 256 % 16) ++ ", V" ++ toHex (inst / 16 % 16) else
  if inst / 4096 = 8 ∧ inst % 16 = 2 then "AND V" ++ toHex (inst / 256 % 16) ++ ", V" ++ toHex (inst / 16 % 16) else
  if inst / 4096 = 8 ∧ inst % 16 = 3 then "XOR V" ++ toHex (inst / 256 % 16) ++ ", V" ++ toHex (inst / 16 % 16) else
  if inst / 4096 = 8 ∧ inst % 16 = 4 then "ADD V" ++ toHex (inst / 256 % 16) ++ ", V" ++ toHex (inst / 16 % 16) else
  if inst / 4096 = 8 ∧ inst % 16 = 5 then "SUB V" ++ toHex (inst / 256 % 16) ++ ", V" ++ toHex (inst / 16 % 16) else
  if inst / 4096 = 8 ∧ inst % 16 = 7 then "SUBN V" ++ toHex (inst / 256 % 16) ++ ", V" ++ toHex (inst / 16 % 16) else
  if inst / 4096 = 9 ∧ inst % 16 = 0 then "SNE V" ++ toHex (inst / 256 % 16) ++ ", V" ++ toHex (inst / 16 % 16) else
  if inst / 4096 = 8 ∧ inst % 16 = 6 then "SHR V" ++ toHex (inst / 256 % 16) else
  if inst / 4096 = 8 ∧ inst % 16 = 0xE then "SHL V" ++ toHex (inst / 256 % 16) else
  if inst / 4096 = 0xD then "DRW V" ++ toHex (inst / 256 % 16) ++ ", V" ++ toHex (inst / 16 % 16) ++ ", 0x" ++ toHex (inst % 16) else
  if inst / 4096 = 0xE ∧ inst % 256 = 0x9E then "SKP V" ++ toHex (inst / 256 % 16) else
  if inst / 4096 = 0xE ∧ inst % 256 = 0xA1 then "SKNP V" ++ toHex (inst / 256 % 16) else
  if inst / 4096 = 0xF ∧ inst % 256 = 0x07 then "LD V" ++ toHex (inst / 256 % 16) ++ ", DT" else
  if inst / 4096 = 0xF ∧ inst % 256 = 0x0A then "LD V" ++ toHex (inst / 256 % 16) ++ ", K" else
  if inst / 4096 = 0xF ∧ inst % 256 = 0x15 then "LD DT, v" ++ toHex (inst / 256 % 16) else
  if inst / 4096 = 0xF ∧ inst % 256 = 0x18 then "LD ST, V" ++ toHex (inst / 256 % 16) else
  if inst / 4096 = 0xF ∧ inst % 256 = 0x1E then "ADD I, V" ++ toHex (inst / 256 % 16) else
  if inst / 4096 = 0xF ∧ inst % 256 = 0x29 then "LD F, V" ++ toHex (inst / 256 % 16) else
  if inst / 4096 = 0xF ∧ inst % 256 = 0x33 then "LD B, V" ++ toHex (inst / 256 % 16) else
  if inst / 4096 = 0xF ∧ inst % 256 = 0x55 then "LD [I], V" ++ toHex (inst / 256 % 16) else
  if inst / 4096 = 0xF ∧ inst % 256 = 0x65 then "LD V" ++ toHex (inst / 256 % 16) ++ ", [I]" else
  "0x" ++ padHex 4 inst

/-- The exact condition under which control in `convert_instruction`
reaches the final fallback line (`src/lib.rs`, line 286): the conjunction
of the negations of every guard in the chain, in source order. -/
def reachesFallback (inst : Nat) : Prop :=
  ¬inst = 0x00E0 ∧ ¬inst = 0x00EE ∧
  ¬inst / 4096 = 0 ∧ ¬inst / 4096 = 1 ∧ ¬inst / 4096 = 2 ∧
  ¬inst / 4096 = 0xA ∧ ¬inst / 4096 = 0xB ∧
  ¬inst / 4096 = 3 ∧ ¬inst / 4096 = 4 ∧ ¬inst / 4096 = 6 ∧
  ¬inst / 4096 = 7 ∧ ¬inst / 4096 = 0xC ∧
  ¬(inst / 4096 = 5 ∧ inst % 16 = 0) ∧
  ¬(inst / 4096 = 8 ∧ inst % 16 = 0) ∧
  ¬(inst / 4096 = 8 ∧ inst % 16 = 1) ∧
  ¬(inst / 4096 = 8 ∧ inst % 16 = 2) ∧
  ¬(inst / 4096 = 8 ∧ inst % 16 = 3) ∧
  ¬(inst / 4096 = 8 ∧ inst % 16 = 4) ∧
  ¬(inst / 4096 = 8 ∧ inst % 16 = 5) ∧
  ¬(inst / 4096 = 8 ∧ inst % 16 = 7) ∧
  ¬(inst / 4096 = 9 ∧ inst % 16 = 0) ∧
  ¬(inst / 4096 = 8 ∧ inst % 16 = 6) ∧
  ¬(inst / 4096 = 8 ∧ inst % 16 = 0xE) ∧
  ¬inst / 4096 = 0xD ∧
  ¬(inst / 4096 = 0xE ∧ inst % 256 = 0x9E) ∧
  ¬(inst / 4096 = 0xE ∧ inst % 256 = 0xA1) ∧
  ¬(inst / 4096 = 0xF ∧ inst % 256 = 0x07) ∧
  ¬(inst / 4096 = 0xF ∧ inst % 256 = 0x0A) ∧
  ¬(inst / 4096 = 0xF ∧ inst % 256 = 0x15) ∧
  ¬(inst / 4096 = 0xF ∧ inst % 256 = 0x18) ∧
  ¬(inst / 4096 = 0xF ∧ inst % 256 = 0x1E) ∧
  ¬(inst / 4096 = 0xF ∧ inst % 256 = 0x29) ∧
  ¬(inst / 4096 = 0xF ∧ inst % 256 = 0x33) ∧
  ¬(inst / 4096 = 0xF ∧ inst % 256 = 0x55) ∧
  ¬(inst / 4096 = 0xF ∧ inst % 256 = 0x65)

/-- The claimed characterisation of the fallback set, written from the
claim's words: top nibble 5 or 9 with nonzero bottom nibble; top nibble 8
with bottom nibble in {8, 9, A, B, C, D, F}; top nibble E with low byte
outside {9E, A1}; top nibble F with low byte outside
{07, 0A, 15, 18, 1E, 29, 33, 55, 65}. -/
def isFallbackSpec (inst : Nat) : Prop :=
  (inst / 4096 = 5 ∧ inst % 16 ≠ 0) ∨
  (inst / 4096 = 9 ∧ inst % 16 ≠ 0) ∨
  (inst / 4096 = 8 ∧
    (inst % 16 = 8 ∨ inst % 16 = 9 ∨ inst % 16 = 0xA ∨ inst % 16 = 0xB ∨
     inst % 16 = 0xC ∨ inst % 16 = 0xD ∨ inst % 16 = 0xF)) ∨
  (inst / 4096 = 0xE ∧ inst % 256 ≠ 0x9E ∧ inst % 256 ≠ 0xA1) ∨
  (inst / 4096 = 0xF ∧
    inst % 256 ≠ 0x07 ∧ inst % 256 ≠ 0x0A ∧ inst % 256 ≠ 0x15 ∧
    inst % 256 ≠ 0x18 ∧ inst % 256 ≠ 0x1E ∧ inst % 256 ≠ 0x29 ∧
    inst % 256 ≠ 0x33 ∧ inst % 256 ≠ 0x55 ∧ inst % 256 ≠ 0x65)

theorem data_append (s t : String) : (s ++ t).data = s.data ++ t.data := by
  cases s; cases t; rfl

theorem data_push (s : String) (c : Char) : (s.push c).data = s.data ++ [c] := by
  cases s; rfl

theorem length_append (s t : String) : (s ++ t).length = s.length + t.length := by
  cases s with
  | mk a =>
    cases t with
    | mk b => show (a ++ b).length = a.length + b.length; exact List.length_append a b

theorem length_append_pos (s t : String) (h : 0 < s.length) : 0 < (s ++ t).length := by
  rw [length_append]; omega

theorem length_mk (l : List Char) : String.length ⟨l⟩ = l.length := rfl

theorem hexDigit_ne_newline (n : Nat) (h : n < 16) : hexDigit n ≠ Char.ofNat 10 := by
  interval_cases n <;> decide

theorem hexCharsAux_ne_newline (fuel : Nat) : ∀ (n : Nat) (acc : List Char),
    (∀ c ∈ acc, c ≠ Char.ofNat 10) → ∀ c ∈ hexCharsAux fuel n acc, c ≠ Char.ofNat 10 := by
  induction fuel with
  | zero => intro n acc hacc; exact hacc
  | succ fuel ih =>
    intro n acc hacc
    unfold hexCharsAux
    split
    · exact hacc
    · apply ih
      intro c hc
      rcases List.mem_cons.mp hc with rfl | hc
      · exact hexDigit_ne_newline _ (Nat.mod_lt _ (by decide))
      · exact hacc c hc

theorem hexChars_ne_newline (n : Nat) : ∀ c ∈ hexChars n, c ≠ Char.ofNat 10 := by
  unfold hexChars
  split
  · intro c hc
    rcases List.mem_cons.mp hc with rfl | hc
    · decide
    · exact absurd hc (List.not_mem_nil c)
  · exact hexCharsAux_ne_newline _ _ _ (by intro c hc; exact absurd hc (List.not_mem_nil c))

theorem newline_not_mem_toHex (n : Nat) : Char.ofNat 10 ∉ (toHex n).data := by
  intro h
  exact hexChars_ne_newline n _ h rfl

theorem newline_not_mem_padHex (w n : Nat) : Char.ofNat 10 ∉ (padHex w n).data := by
  intro h
  have h' : Char.ofNat 10 ∈ List.replicate (w - (hexChars n).length) '0' ++ hexChars n := h
  rcases List.mem_append.mp h' with h'' | h''
  · exact absurd (List.eq_of_mem_replicate h'') (by decide)
  · exact hexChars_ne_newline n _ h'' rfl

theorem hexCharsAux_zero (fuel : Nat) (acc : List Char) : hexCharsAux fuel 0 acc = acc := by
  cases fuel <;> simp [hexCharsAux]

theorem hexCharsAux_length_le (k : Nat) : ∀ (fuel n : Nat) (acc : List Char), n < 16 ^ k →
    (hexCharsAux fuel n acc).length ≤ acc.length + k := by
  induction k with
  | zero =>
    intro fuel n acc hn
    have hn0 : n = 0 := by simpa using hn
    subst hn0
    rw [hexCharsAux_zero]
    exact Nat.le_add_right _ _
  | succ k ih =>
    intro fuel n acc hn
    cases fuel with
    | zero => exact Nat.le_add_right _ _
    | succ fuel =>
      unfold hexCharsAux
      split
      · exact Nat.le_add_right _ _
      · have h16 : n / 16 < 16 ^ k := by
          apply Nat.div_lt_of_lt_mul
          rw [Nat.pow_succ, Nat.mul_comm] at hn
          exact hn
        calc (hexCharsAux fuel (n / 16) (hexDigit (n % 16) :: acc)).length
            ≤ (hexDigit (n % 16) :: acc).length + k := ih fuel (n / 16) _ h16
          _ = acc.length + (k + 1) := by rw [List.length_cons]; omega

theorem hexChars_length_le (n : Nat) (h : n < 65536) : (hexChars n).length ≤ 4 := by
  unfold hexChars
  split
  · decide
  · have := hexCharsAux_length_le 4 n n [] (by norm_num; omega)
    simpa using this

theorem padHex_length (w n : Nat) (h : (hexChars n).length ≤ w) :
    (padHex w n).length = w := by
  unfold padHex
  rw [length_mk, List.length_append, List.length_replicate]
  omega

theorem combine_chunk_eq (b1 b2 : Nat) (h2 : b2 < 256) :
    combine_chunk [b1, b2] = 256 * b1 + b2 := by
  show b1 <<< 8 ||| b2 = 256 * b1 + b2
  rw [Nat.shiftLeft_eq]
  have h2' : b2 < 2 ^ 8 := h2
  calc b1 * 2 ^ 8 ||| b2 = 2 ^ 8 * b1 ||| b2 := by rw [Nat.mul_comm]
    _ = 2 ^ 8 * b1 + b2 := (Nat.mul_add_lt_is_or h2' b1).symm
    _ = 256 * b1 + b2 := by norm_num

theorem frame_nil : frame [] = [] := rfl

theorem frame_cons2 (b1 b2 : Nat) (rest : List Nat) :
    frame (b1 :: b2 :: rest) = combine_chunk [b1, b2] :: frame rest := rfl

theorem frame_length : ∀ (bytes : List Nat), bytes.length % 2 = 0 →
    (frame bytes).length = bytes.length / 2
  | [], _ => rfl
  | [_], h => by simp at h
  | b1 :: b2 :: rest, h => by
    have hr : rest.length % 2 = 0 := by
      simp only [List.length_cons] at h
      omega
    rw [frame_cons2, List.length_cons, frame_length rest hr]
    simp only [List.length_cons]
    omega

theorem frame_getD (i : Nat) : ∀ (bytes : List Nat), 2 * i + 1 < bytes.length →
    (frame bytes).getD i 0 =
      combine_chunk [bytes.getD (2 * i) 0, bytes.getD (2 * i + 1) 0] := by
  induction i with
  | zero =>
    intro bytes h
    match bytes with
    | [] => simp at h
    | [b] => simp at h
    | b1 :: b2 :: rest => simp [frame_cons2]
  | succ i ih =>
    intro bytes h
    match bytes with
    | [] => simp at h
    | [b] => simp at h
    | b1 :: b2 :: rest =>
      rw [frame_cons2]
      have e1 : 2 * (i + 1) = 2 * i + 1 + 1 := by omega
      rw [e1]
      simp only [List.getD_cons_succ]
      exact ih rest (by simp only [List.length_cons] at h; omega)

theorem not_mem_append {c : Char} (s t : String) (hs : c ∉ s.data) (ht : c ∉ t.data) :
    c ∉ (s ++ t).data := by
  rw [data_append]
  intro h
  rcases List.mem_append.mp h with h | h
  · exact hs h
  · exact ht h

theorem convert_cases (P : String → Prop) (inst : Nat)
    (a1 : P "CLS") (a2 : P "RET")
    (a3 : P ("SYS 0x" ++ padHex 3 (inst % 4096)))
    (a4 : P ("JP 0x" ++ padHex 3 (inst % 4096)))
    (a5 : P ("CALL 0x" ++ padHex 3 (inst % 4096)))
    (a6 : P ("LD I, 0x" ++ padHex 3 (inst % 4096)))
    (a7 : P ("JP V0, 0x" ++ padHex 3 (inst % 4096)))
    (a8 : P ("SE V" ++ toHex (inst / 256 % 16) ++ ", 0x" ++ padHex 2 (inst % 256)))
    (a9 : P ("SNE V" ++ toHex (inst / 256 % 16) ++ ", 0x" ++ padHex 2 (inst % 256)))
    (a10 : P ("LD V" ++ toHex (inst / 256 % 16) ++ ", 0x" ++ padHex 2 (inst % 256)))
    (a11 : P ("ADD V" ++ toHex (inst / 256 % 16) ++ ", 0x" ++ padHex 2 (inst % 256)))
    (a12 : P ("RND V" ++ toHex (inst / 256 % 16) ++ ", 0x" ++ padHex 2 (inst % 256)))
    (a13 : P ("SE V" ++ toHex (inst / 256 % 16) ++ ", V" ++ toHex (inst / 16 % 16)))
    (a14 : P ("LD V" ++ toHex (inst / 256 % 16) ++ ", V" ++ toHex (inst / 16 % 16)))
    (a15 : P ("OR V" ++ toHex (inst / 256 % 16) ++ ", V" ++ toHex (inst / 16 % 16)))
    (a16 : P ("AND V" ++ toHex (inst / 256 % 16) ++ ", V" ++ toHex (inst / 16 % 16)))
    (a17 : P ("XOR V" ++ toHex (inst / 256 % 16) ++ ", V" ++ toHex (inst / 16 % 16)))
    (a18 : P ("ADD V" ++ toHex (inst / 256 % 16) ++ ", V" ++ toHex (inst / 16 % 16)))
    (a19 : P ("SUB V" ++ toHex (inst / 256 % 16) ++ ", V" ++ toHex (inst / 16 % 16)))
    (a20 : P ("SUBN V" ++ toHex (inst / 256 % 16) ++ ", V" ++ toHex (inst / 16 % 16)))
    (a21 : P ("SNE V" ++ toHex (inst / 256 % 16) ++ ", V" ++ toHex (inst / 16 % 16)))
    (a22 : P ("SHR V" ++ toHex (inst / 256 % 16)))
    (a23 : P ("SHL V" ++ toHex (inst / 256 % 16)))
    (a24 : P ("DRW V" ++ toHex (inst / 256 % 16) ++ ", V" ++ toHex (inst / 16 % 16) ++ ", 0x" ++ toHex (inst % 16)))
    (a25 : P ("SKP V" ++ toHex (inst / 256 % 16)))
    (a26 : P ("SKNP V" ++ toHex (inst / 256 % 16)))
    (a27 : P ("LD V" ++ toHex (inst / 256 % 16) ++ ", DT"))
    (a28 : P ("LD V" ++ toHex (inst / 256 % 16) ++ ", K"))
    (a29 : P ("LD DT, v" ++ toHex (inst / 256 % 16)))
    (a30 : P ("LD ST, V" ++ toHex (inst / 256 % 16)))
    (a31 : P ("ADD I, V" ++ toHex (inst / 256 % 16)))
    (a32 : P ("LD F, V" ++ toHex (inst / 256 % 16)))
    (a33 : P ("LD B, V" ++ toHex (inst / 256 % 16)))
    (a34 : P ("LD [I], V" ++ toHex (inst / 256 % 16)))
    (a35 : P ("LD V" ++ toHex (inst / 256 % 16) ++ ", [I]"))
    (a36 : P ("0x" ++ padHex 4 inst)) :
    P (convert_instruction inst) := by
  unfold convert_instruction
  by_cases g1 : inst = 0x00E0
  · rw [if_pos g1]; exact a1
  rw [if_neg g1]
  by_cases g2 : inst = 0x00EE
  · rw [if_pos g2]; exact a2
  rw [if_neg g2]
  by_cases g3 : inst / 4096 = 0
  · rw [if_pos g3]; exact a3
  rw [if_neg g3]
  by_cases g4 : inst / 4096 = 1
  · rw [if_pos g4]; exact a4
  rw [if_neg g4]
  by_cases g5 : inst / 4096 = 2
  · rw [if_pos g5]; exact a5
  rw [if_neg g5]
  by_cases g6 : inst / 4096 = 0xA
  · rw [if_pos g6]; exact a6
  rw [if_neg g6]
  by_cases g7 : inst / 4096 = 0xB
  · rw [if_pos g7]; exact a7
  rw [if_neg g7]
  by_cases g8 : inst / 4096 = 3
  · rw [if_pos g8]; exact a8
  rw [if_neg g8]
  by_cases g9 : inst / 4096 = 4
  · rw [if_pos g9]; exact a9
  rw [if_neg g9]
  by_cases g10 : inst / 4096 = 6
  · rw [if_pos g10]; exact a10
  rw [if_neg g10]
  by_cases g11 : inst / 4096 = 7
  · rw [if_pos g11]; exact a11
  rw [if_neg g11]
  by_cases g12 : inst / 4096 = 0xC
  · rw [if_pos g12]; exact a12
  rw [if_neg g12]
  by_cases g13 : inst / 4096 = 5 ∧ inst % 16 = 0
  · rw [if_pos g13]; exact a13
  rw [if_neg g13]
  by_cases g14 : inst / 4096 = 8 ∧ inst % 16 = 0
  · rw [if_pos g14]; exact a14
  rw [if_neg g14]
  by_cases g15 : inst / 4096 = 8 ∧ inst % 16 = 1
  · rw [if_pos g15]; exact a15
  rw [if_neg g15]
  by_cases g16 : inst / 4096 = 8 ∧ inst % 16 = 2
  · rw [if_pos g16]; exact a16
  rw [if_neg g16]
  by_cases g17 : inst / 4096 = 8 ∧ inst % 16 = 3
  · rw [if_pos g17]; exact a17
  rw [if_neg g17]
  by_cases g18 : inst / 4096 = 8 ∧ inst % 16 = 4
  · rw [if_pos g18]; exact a18
  rw [if_neg g18]
  by_cases g19 : inst / 4096 = 8 ∧ inst % 16 = 5
  · rw [if_pos g19]; exact a19
  rw [if_neg g19]
  by_cases g20 : inst / 4096 = 8 ∧ inst % 16 = 7
  · rw [if_pos g20]; exact a20
  rw [if_neg g20]
  by_cases g21 : inst / 4096 = 9 ∧ inst % 16 = 0
  · rw [if_pos g21]; exact a21
  rw [if_neg g21]
  by_cases g22 : inst / 4096 = 8 ∧ inst % 16 = 6
  · rw [if_pos g22]; exact a22
  rw [if_neg g22]
  by_cases g23 : inst / 4096 = 8 ∧ inst % 16 = 0xE
  · rw [if_pos g23]; exact a23
  rw [if_neg g23]
  by_cases g24 : inst / 4096 = 0xD
  · rw [if_pos g24]; exact a24
  rw [if_neg g24]
  by_cases g25 : inst / 4096 = 0xE ∧ inst % 256 = 0x9E
  · rw [if_pos g25]; exact a25
  rw [if_neg g25]
  by_cases g26 : inst / 4096 = 0xE ∧ inst % 256 = 0xA1
  · rw [if_pos g26]; exact a26
  rw [if_neg g26]
  by_cases g27 : inst / 4096 = 0xF ∧ inst % 256 = 0x07
  · rw [if_pos g27]; exact a27
  rw [if_neg g27]
  by_cases g28 : inst / 4096 = 0xF ∧ inst % 256 = 0x0A
  · rw [if_pos g28]; exact a28
  rw [if_neg g28]
  by_cases g29 : inst / 4096 = 0xF ∧ inst % 256 = 0x15
  · rw [if_pos g29]; exact a29
  rw [if_neg g29]
  by_cases g30 : inst / 4096 = 0xF ∧ inst % 256 = 0x18
  · rw [if_pos g30]; exact a30
  rw [if_neg g30]
  by_cases g31 : inst / 4096 = 0xF ∧ inst % 256 = 0x1E
  · rw [if_pos g31]; exact a31
  rw [if_neg g31]
  by_cases g32 : inst / 4096 = 0xF ∧ inst % 256 = 0x29
  · rw [if_pos g32]; exact a32
  rw [if_neg g32]
  by_cases g33 : inst / 4096 = 0xF ∧ inst % 256 = 0x33
  · rw [if_pos g33]; exact a33
  rw [if_neg g33]
  by_cases g34 : inst / 4096 = 0xF ∧ inst % 256 = 0x55
  · rw [if_pos g34]; exact a34
  rw [if_neg g34]
  by_cases g35 : inst / 4096 = 0xF ∧ inst % 256 = 0x65
  · rw [if_pos g35]; exact a35
  rw [if_neg g35]
  exact a36

theorem convert_instruction_no_newline (inst : Nat) :
    Char.ofNat 10 ∉ (convert_instruction inst).data := by
  apply convert_cases (fun s => Char.ofNat 10 ∉ s.data) inst <;>
    repeat
      first
        | exact newline_not_mem_toHex _
        | exact newline_not_mem_padHex _ _
        | decide
        | apply not_mem_append

theorem convert_instruction_length_pos (inst : Nat) :
    0 < (convert_instruction inst).length :=
  convert_cases (fun s => 0 < s.length) inst
    (by decide)
    (by decide)
    (length_append_pos _ _ (by decide))
    (length_append_pos _ _ (by decide))
    (length_append_pos _ _ (by decide))
    (length_append_pos _ _ (by decide))
    (length_append_pos _ _ (by decide))
    (length_append_pos _ _ (length_append_pos _ _ (length_append_pos _ _ (by decide))))
    (length_append_pos _ _ (length_append_pos _ _ (length_append_pos _ _ (by decide))))
    (length_append_pos _ _ (length_append_pos _ _ (length_append_pos _ _ (by decide))))
    (length_append_pos _ _ (length_append_pos _ _ (length_append_pos _ _ (by decide))))
    (length_append_pos _ _ (length_append_pos _ _ (length_append_pos _ _ (by decide))))
    (length_append_pos _ _ (length_append_pos _ _ (length_append_pos _ _ (by decide))))
    (length_append_pos _ _ (length_append_pos _ _ (length_append_pos _ _ (by decide))))
    (length_append_pos _ _ (length_append_pos _ _ (length_append_pos _ _ (by decide))))
    (length_append_pos _ _ (length_append_pos _ _ (length_append_pos _ _ (by decide))))
    (length_append_pos _ _ (length_append_pos _ _ (length_append_pos _ _ (by decide))))
    (length_append_pos _ _ (length_append_pos _ _ (length_append_pos _ _ (by decide))))
    (length_append_pos _ _ (length_append_pos _ _ (length_append_pos _ _ (by decide))))
    (length_append_pos _ _ (length_append_pos _ _ (length_append_pos _ _ (by decide))))
    (length_append_pos _ _ (length_append_pos _ _ (length_append_pos _ _ (by decide))))
    (length_append_pos _ _ (by decide))
    (length_append_pos _ _ (by decide))
    (length_append_pos _ _ (length_append_pos _ _ (length_append_pos _ _ (length_append_pos _ _ (length_append_pos _ _ (by decide))))))
    (length_append_pos _ _ (by decide))
    (length_append_pos _ _ (by decide))
    (length_append_pos _ _ (length_append_pos _ _ (by decide)))
    (length_append_pos _ _ (length_append_pos _ _ (by decide)))
    (length_append_pos _ _ (by decide))
    (length_append_pos _ _ (by decide))
    (length_append_pos _ _ (by decide))
    (length_append_pos _ _ (by decide))
    (length_append_pos _ _ (by decide))
    (length_append_pos _ _ (by decide))
    (length_append_pos _ _ (length_append_pos _ _ (by decide)))
    (length_append_pos _ _ (by decide))

theorem topNibble_cases (inst : Nat) (h : inst < 65536)
    (n0 : inst / 4096 ≠ 0) (n1 : inst / 4096 ≠ 1) (n2 : inst / 4096 ≠ 2)
    (n3 : inst / 4096 ≠ 3) (n4 : inst / 4096 ≠ 4) (n6 : inst / 4096 ≠ 6)
    (n7 : inst / 4096 ≠ 7) (nA : inst / 4096 ≠ 10) (nB : inst / 4096 ≠ 11)
    (nC : inst / 4096 ≠ 12) (nD : inst / 4096 ≠ 13) :
    inst / 4096 = 5 ∨ inst / 4096 = 8 ∨ inst / 4096 = 9 ∨
      inst / 4096 = 14 ∨ inst / 4096 = 15 := by
  omega

theorem lowNibble_cases (l : Nat) (hl : l < 16) (n0 : l ≠ 0) (n1 : l ≠ 1)
    (n2 : l ≠ 2) (n3 : l ≠ 3) (n4 : l ≠ 4) (n5 : l ≠ 5) (n6 : l ≠ 6)
    (n7 : l ≠ 7) (nE : l ≠ 14) :
    l = 8 ∨ l = 9 ∨ l = 10 ∨ l = 11 ∨ l = 12 ∨ l = 13 ∨ l = 15 := by
  omega

theorem reachesFallback_iff_isFallbackSpec (inst : Nat) (h : inst < 65536) :
    reachesFallback inst ↔ isFallbackSpec inst := by
  unfold reachesFallback isFallbackSpec
  constructor
  · rintro ⟨h1, h2, h3, h4, h5, h6, h7, h8, h9, h10, h11, h12, h13, h14, h15, h16, h17, h18,
      h19, h20, h21, h22, h23, h24, h25, h26, h27, h28, h29, h30, h31, h32, h33, h34, h35⟩
    rcases topNibble_cases inst h h3 h4 h5 h8 h9 h10 h11 h6 h7 h12 h24 with hu | hu | hu | hu | hu
    · exact Or.inl ⟨hu, fun h0 => h13 ⟨hu, h0⟩⟩
    · refine Or.inr (Or.inr (Or.inl ⟨hu, ?_⟩))
      exact lowNibble_cases (inst % 16) (Nat.mod_lt _ (by decide))
        (fun h0 => h14 ⟨hu, h0⟩) (fun h0 => h15 ⟨hu, h0⟩) (fun h0 => h16 ⟨hu, h0⟩)
        (fun h0 => h17 ⟨hu, h0⟩) (fun h0 => h18 ⟨hu, h0⟩) (fun h0 => h19 ⟨hu, h0⟩)
        (fun h0 => h22 ⟨hu, h0⟩) (fun h0 => h20 ⟨hu, h0⟩) (fun h0 => h23 ⟨hu, h0⟩)
    · exact Or.inr (Or.inl ⟨hu, fun h0 => h21 ⟨hu, h0⟩⟩)
    · exact Or.inr (Or.inr (Or.inr (Or.inl
        ⟨hu, fun h0 => h25 ⟨hu, h0⟩, fun h0 => h26 ⟨hu, h0⟩⟩)))
    · exact Or.inr (Or.inr (Or.inr (Or.inr
        ⟨hu, fun h0 => h27 ⟨hu, h0⟩, fun h0 => h28 ⟨hu, h0⟩, fun h0 => h29 ⟨hu, h0⟩,
          fun h0 => h30 ⟨hu, h0⟩, fun h0 => h31 ⟨hu, h0⟩, fun h0 => h32 ⟨hu, h0⟩,
          fun h0 => h33 ⟨hu, h0⟩, fun h0 => h34 ⟨hu, h0⟩, fun h0 => h35 ⟨hu, h0⟩⟩)))
  · intro hs
    rcases hs with ⟨hu, hv⟩ | ⟨hu, hv⟩ | ⟨hu, hv⟩ | ⟨hu, hv1, hv2⟩ |
        ⟨hu, hv1, hv2, hv3, hv4, hv5, hv6, hv7, hv8, hv9⟩ <;>
      (repeat' apply And.intro) <;> omega

theorem convert_instruction_of_reachesFallback (inst : Nat) (h : reachesFallback inst) :
    convert_instruction inst = "0x" ++ padHex 4 inst := by
  obtain ⟨h1, h2, h3, h4, h5, h6, h7, h8, h9, h10, h11, h12, h13, h14, h15, h16, h17, h18,
    h19, h20, h21, h22, h23, h24, h25, h26, h27, h28, h29, h30, h31, h32, h33, h34, h35⟩ := h
  unfold convert_instruction
  rw [if_neg h1, if_neg h2, if_neg h3, if_neg h4, if_neg h5, if_neg h6, if_neg h7, if_neg h8,
    if_neg h9, if_neg h10, if_neg h11, if_neg h12, if_neg h13, if_neg h14, if_neg h15,
    if_neg h16, if_neg h17, if_neg h18, if_neg h19, if_neg h20, if_neg h21, if_neg h22,
    if_neg h23, if_neg h24, if_neg h25, if_neg h26, if_neg h27, if_neg h28, if_neg h29,
    if_neg h30, if_neg h31, if_neg h32, if_neg h33, if_neg h34, if_neg h35]

theorem append_empty_str (s : String) : s ++ "" = s := by
  cases s with
  | mk a => show String.mk (a ++ []) = String.mk a; rw [List.append_nil]

theorem empty_append_str (s : String) : "" ++ s = s := by
  cases s with
  | mk a => rfl

theorem append_assoc_str (a b c : String) : (a ++ b) ++ c = a ++ (b ++ c) := by
  cases a with
  | mk x =>
    cases b with
    | mk y =>
      cases c with
      | mk z => show String.mk (x ++ y ++ z) = String.mk (x ++ (y ++ z)); rw [List.append_assoc]

theorem push_eq_append_newline (s : String) : s.push (Char.ofNat 10) = s ++ "\n" := by
  cases s with
  | mk a => rfl

theorem join_nil : String.join [] = "" := rfl

theorem foldl_append_shift (l : List String) : ∀ a : String,
    l.foldl (fun r s => r ++ s) a = a ++ l.foldl (fun r s => r ++ s) "" := by
  induction l with
  | nil => intro a; exact (append_empty_str a).symm
  | cons s rest ih =>
    intro a
    rw [List.foldl_cons, List.foldl_cons, ih (a ++ s), ih ("" ++ s),
      empty_append_str, append_assoc_str]

theorem join_cons (s : String) (l : List String) :
    String.join (s :: l) = s ++ String.join l := by
  show (s :: l).foldl (fun r t => r ++ t) "" = s ++ String.join l
  rw [List.foldl_cons, empty_append_str]
  exact foldl_append_shift l s

theorem foldl_push_join : ∀ (l : List String) (acc : String),
    l.foldl (fun a s => (a ++ s).push (Char.ofNat 10)) acc
      = acc ++ String.join (l.map (fun s => s ++ "\n"))
  | [], acc => by
    rw [List.foldl_nil, List.map_nil, join_nil, append_empty_str]
  | s :: rest, acc => by
    rw [List.foldl_cons, List.map_cons, join_cons, foldl_push_join rest,
      push_eq_append_newline, append_assoc_str, append_assoc_str, append_assoc_str]

theorem count_foldl_push : ∀ (l : List String),
    (∀ s ∈ l, Char.ofNat 10 ∉ s.data) → ∀ acc : String,
    ((l.foldl (fun a s => (a ++ s).push (Char.ofNat 10)) acc)).data.count (Char.ofNat 10)
      = acc.data.count (Char.ofNat 10) + l.length
  | [], _, acc => by rw [List.foldl_nil, List.length_nil, Nat.add_zero]
  | s :: rest, hmem, acc => by
    rw [List.foldl_cons,
      count_foldl_push rest (fun t ht => hmem t (List.mem_cons_of_mem s ht)) _]
    have hdata : ((acc ++ s).push (Char.ofNat 10)).data
        = acc.data ++ s.data ++ [Char.ofNat 10] := by
      rw [data_push, data_append]
    rw [hdata, List.count_append, List.count_append]
    have hs : s.data.count (Char.ofNat 10) = 0 :=
      List.count_eq_zero.mpr (hmem s (List.mem_cons_self s rest))
    rw [hs]
    simp [List.length_cons]
    omega

theorem newline_get : "\n".get 0 = '\n' := rfl

theorem newline_next : "\n".next 0 = ⟨1⟩ := rfl

theorem newline_atEnd : "\n".atEnd ⟨1⟩ = true := rfl

theorem mk_data (s : String) : String.mk s.data = s := by
  cases s; rfl

/-- `String.splitOnAux` specialised to the one-character separator `"\n"`:
with the subject string decomposed as `l ++ m ++ r` — `l` already consumed
into earlier fields, `m` the current field, `r` unscanned — it computes the
character-level `List.splitOnP.go` on `r`. -/
theorem splitOnAux_nl (l m r acc) :
    String.splitOnAux ⟨l ++ m ++ r⟩ "\n" ⟨String.utf8Len l⟩
        ⟨String.utf8Len l + String.utf8Len m⟩ 0 acc =
      acc.reverse ++ (List.splitOnP.go (fun c => c == '\n') r m.reverse).map String.mk := by
  induction r generalizing l m acc with
  | nil =>
    unfold String.splitOnAux
    have hpos : (⟨String.utf8Len l + String.utf8Len m⟩ : String.Pos)
        = ⟨String.utf8Len (l ++ m)⟩ := by
      simp [String.utf8Len_append]
    have hend : (⟨l ++ m ++ []⟩ : String).atEnd ⟨String.utf8Len l + String.utf8Len m⟩
        = true := by
      rw [hpos]
      exact (String.atEnd_of_valid (l ++ m) []).mpr rfl
    rw [if_pos hend]
    have hext : (⟨l ++ m ++ []⟩ : String).extract ⟨String.utf8Len l⟩
        ⟨String.utf8Len l + String.utf8Len m⟩ = ⟨m⟩ :=
      String.extract_of_valid l m []
    rw [hext]
    simp [List.splitOnP.go]
  | cons c r ih =>
    unfold String.splitOnAux
    have hpos : (⟨String.utf8Len l + String.utf8Len m⟩ : String.Pos)
        = ⟨String.utf8Len (l ++ m)⟩ := by
      simp [String.utf8Len_append]
    have hend : ¬(⟨l ++ m ++ c :: r⟩ : String).atEnd ⟨String.utf8Len l + String.utf8Len m⟩
        = true := by
      rw [hpos]
      intro hc
      exact List.cons_ne_nil c r ((String.atEnd_of_valid (l ++ m) (c :: r)).mp hc)
    rw [if_neg hend]
    have hget : (⟨l ++ m ++ c :: r⟩ : String).get ⟨String.utf8Len l + String.utf8Len m⟩
        = c := by
      rw [hpos]
      exact String.get_of_valid (l ++ m) (c :: r)
    rw [hget, newline_get]
    by_cases hc : c = '\n'
    · subst hc
      rw [if_pos (show ('\n' == '\n') = true from rfl)]
      simp only [newline_next, newline_atEnd, if_true]
      have hnext : (⟨l ++ m ++ '\n' :: r⟩ : String).next
            ⟨String.utf8Len l + String.utf8Len m⟩
          = ⟨String.utf8Len l + String.utf8Len m + 1⟩ := by
        rw [hpos, String.next_of_valid (l ++ m) '\n' r]
        simp [String.utf8Len_append, show Char.utf8Size '\n' = 1 from rfl]
      rw [hnext]
      have hext : (⟨l ++ m ++ '\n' :: r⟩ : String).extract ⟨String.utf8Len l⟩
            ((⟨String.utf8Len l + String.utf8Len m + 1⟩ : String.Pos) - ⟨1⟩) = ⟨m⟩ := by
        show (⟨l ++ m ++ '\n' :: r⟩ : String).extract ⟨String.utf8Len l⟩
          ⟨String.utf8Len l + String.utf8Len m + 1 - 1⟩ = ⟨m⟩
        rw [Nat.add_sub_cancel]
        exact String.extract_of_valid l m ('\n' :: r)
      rw [hext]
      have ih' := ih (l ++ m ++ ['\n']) [] (⟨m⟩ :: acc)
      simp only [List.append_nil, List.append_assoc, List.singleton_append, List.reverse_nil,
        String.utf8Len_append, String.utf8Len_cons, String.utf8Len_nil, Nat.zero_add,
        Nat.add_zero, Nat.add_assoc, show Char.utf8Size '\n' = 1 from rfl] at ih'
      simp only [List.append_assoc, List.singleton_append, Nat.add_assoc]
      rw [ih']
      simp [List.splitOnP.go]
    · rw [if_neg (by simpa using hc)]
      rw [show (⟨String.utf8Len l + String.utf8Len m⟩ : String.Pos) - 0
          = ⟨String.utf8Len l + String.utf8Len m⟩ from rfl]
      have hnext : (⟨l ++ m ++ c :: r⟩ : String).next ⟨String.utf8Len l + String.utf8Len m⟩
          = ⟨String.utf8Len l + String.utf8Len m + c.utf8Size⟩ := by
        rw [hpos, String.next_of_valid (l ++ m) c r]
        simp [String.utf8Len_append]
      rw [hnext]
      have ih' := ih l (m ++ [c]) acc
      simp only [List.append_assoc, List.singleton_append, String.utf8Len_append,
        String.utf8Len_cons, String.utf8Len_nil, Nat.zero_add, Nat.add_zero, Nat.add_assoc,
        List.reverse_append, List.reverse_cons, List.reverse_nil, List.nil_append] at ih'
      simp only [List.append_assoc, List.singleton_append, Nat.add_assoc]
      rw [ih']
      simp [List.splitOnP.go, hc]

/-- Splitting any string on the newline separator is the character-level
predicate split on `'\n'`. -/
theorem splitOn_nl (s : String) :
    s.splitOn "\n" = (List.splitOnP (fun c => c == '\n') s.data).map String.mk := by
  cases s with
  | mk d =>
    have h := splitOnAux_nl [] [] d []
    simp only [List.nil_append, String.utf8Len_nil, List.reverse_nil] at h
    unfold String.splitOn
    rw [if_neg (by decide)]
    exact h

theorem splitOnP_go_append (d : List Char) (hd : ('\n' : Char) ∉ d) :
    ∀ (rest acc : List Char),
    List.splitOnP.go (fun c => c == '\n') (d ++ rest) acc
      = List.splitOnP.go (fun c => c == '\n') rest (d.reverse ++ acc) := by
  induction d with
  | nil => intro rest acc; simp
  | cons a d ih =>
    intro rest acc
    have ha : ¬a = '\n' := fun h => hd (h ▸ List.mem_cons_self a d)
    rw [List.cons_append]
    show (if (a == '\n') = true then _ else _) = _
    rw [if_neg (by simpa using ha)]
    rw [ih (fun h => hd (List.mem_cons_of_mem a h)) rest (a :: acc)]
    congr 1
    simp

theorem splitOnP_go_join : ∀ (ds : List (List Char)),
    (∀ d ∈ ds, ('\n' : Char) ∉ d) →
    List.splitOnP.go (fun c => c == '\n') (List.flatten (ds.map (fun d => d ++ ['\n']))) []
      = ds ++ [[]] := by
  intro ds
  induction ds with
  | nil => intro _; simp [List.splitOnP.go]
  | cons d ds ih =>
    intro h
    rw [List.map_cons, List.flatten_cons, List.append_assoc, List.singleton_append,
      splitOnP_go_append d (h d (List.mem_cons_self d ds)) _ _]
    show (if (('\n' : Char) == '\n') = true then _ else _) = _
    rw [if_pos (by decide)]
    rw [ih (fun t ht => h t (List.mem_cons_of_mem d ht))]
    simp

theorem join_map_newline_data (l : List String) :
    (String.join (l.map (fun t => t ++ "\n"))).data
      = List.flatten ((l.map String.data).map (fun d => d ++ ['\n'])) := by
  induction l with
  | nil => rfl
  | cons t l ihl =>
    rw [List.map_cons, join_cons, data_append, List.map_cons, List.map_cons,
      List.flatten_cons, ihl]
    congr 1

/-- Splitting on `"\n"` a document built by terminating each of a list of
newline-free lines with `'\n'` recovers exactly those lines, followed by one
final empty field for the trailing terminator. -/
theorem splitOn_join_newline (l : List String) (h : ∀ t ∈ l, ('\n' : Char) ∉ t.data) :
    (String.join (l.map (fun t => t ++ "\n"))).splitOn "\n" = l ++ [""] := by
  rw [splitOn_nl, join_map_newline_data]
  have hgo := splitOnP_go_join (l.map String.data)
    (by intro d hd
        rcases List.mem_map.mp hd with ⟨t, ht, rfl⟩
        exact h t ht)
  show (List.splitOnP.go (fun c => c == '\n')
      (List.flatten ((l.map String.data).map (fun d => d ++ ['\n']))) []).map String.mk = _
  rw [hgo, List.map_append, List.map_map]
  congr 1
  rw [show (String.mk ∘ String.data) = id from funext fun t => mk_data t, List.map_id]

theorem disassemble_empty : disassemble [] = Except.error emptyInputMsg := rfl

theorem disassemble_odd (bytes : List Nat) (h : bytes.length % 2 = 1) :
    disassemble bytes = Except.error oddLengthMsg := by
  unfold disassemble
  have hne : ¬bytes.isEmpty = true := by
    cases bytes with
    | nil => simp at h
    | cons b rest => simp
  rw [if_neg hne, if_pos (by omega)]
  rfl

theorem disassemble_even (bytes : List Nat) (hne : bytes ≠ []) (h : bytes.length % 2 = 0) :
    disassemble bytes = Except.ok (((frame bytes).map convert_instruction).foldl
      (fun acc inst => (acc ++ inst).push '\n') "") := by
  unfold disassemble
  have hb : ¬bytes.isEmpty = true := by
    cases bytes with
    | nil => exact absurd rfl hne
    | cons b rest => simp
  rw [if_neg hb, if_neg (by omega)]

theorem emptyInputMsg_ne_oddLengthMsg : emptyInputMsg ≠ oddLengthMsg := by decide

theorem convert_alt_agrees (inst : Nat) (h1 : inst ≠ 0x00E0) (h2 : inst ≠ 0x00EE) :
    convert_instruction_alt inst = convert_instruction inst := by
  unfold convert_instruction convert_instruction_alt
  by_cases h0 : inst / 4096 = 0
  · rw [if_pos h0, if_neg h1, if_neg h2, if_pos h0]
  · rw [if_neg h0, if_neg h1, if_neg h2, if_neg h1, if_neg h2, if_neg h0]

theorem convert_shr (x y : Nat) (hx : x < 16) (hy : y < 16) :
    convert_instruction (0x8000 + 256 * x + 16 * y + 6) = "SHR V" ++ toHex x := by
  have hx_arg : (0x8000 + 256 * x + 16 * y + 6) / 256 % 16 = x := by omega
  unfold convert_instruction
  rw [if_neg (show ¬((0x8000 + 256 * x + 16 * y + 6) = 0x00E0) by omega)]
  rw [if_neg (show ¬((0x8000 + 256 * x + 16 * y + 6) = 0x00EE) by omega)]
  rw [if_neg (show ¬((0x8000 + 256 * x + 16 * y + 6) / 4096 = 0) by omega)]
  rw [if_neg (show ¬((0x8000 + 256 * x + 16 * y + 6) / 4096 = 1) by omega)]
  rw [if_neg (show ¬((0x8000 + 256 * x + 16 * y + 6) / 4096 = 2) by omega)]
  rw [if_neg (show ¬((0x8000 + 256 * x + 16 * y + 6) / 4096 = 0xA) by omega)]
  rw [if_neg (show ¬((0x8000 + 256 * x + 16 * y + 6) / 4096 = 0xB) by omega)]
  rw [if_neg (show ¬((0x8000 + 256 * x + 16 * y + 6) / 4096 = 3) by omega)]
  rw [if_neg (show ¬((0x8000 + 256 * x + 16 * y + 6) / 4096 = 4) by omega)]
  rw [if_neg (show ¬((0x8000 + 256 * x + 16 * y + 6) / 4096 = 6) by omega)]
  rw [if_neg (show ¬((0x8000 + 256 * x + 16 * y + 6) / 4096 = 7) by omega)]
  rw [if_neg (show ¬((0x8000 + 256 * x + 16 * y + 6) / 4096 = 0xC) by omega)]
  rw [if_neg (show ¬((0x8000 + 256 * x + 16 * y + 6) / 4096 = 5 ∧ (0x8000 + 256 * x + 16 * y + 6) % 16 = 0) by omega)]
  rw [if_neg (show ¬((0x8000 + 256 * x + 16 * y + 6) / 4096 = 8 ∧ (0x8000 + 256 * x + 16 * y + 6) % 16 = 0) by omega)]
  rw [if_neg (show ¬((0x8000 + 256 * x + 16 * y + 6) / 4096 = 8 ∧ (0x8000 + 256 * x + 16 * y + 6) % 16 = 1) by omega)]
  rw [if_neg (show ¬((0x8000 + 256 * x + 16 * y + 6) / 4096 = 8 ∧ (0x8000 + 256 * x + 16 * y + 6) % 16 = 2) by omega)]
  rw [if_neg (show ¬((0x8000 + 256 * x + 16 * y + 6) / 4096 = 8 ∧ (0x8000 + 256 * x + 16 * y + 6) % 16 = 3) by omega)]
  rw [if_neg (show ¬((0x8000 + 256 * x + 16 * y + 6) / 4096 = 8 ∧ (0x8000 + 256 * x + 16 * y + 6) % 16 = 4) by omega)]
  rw [if_neg (show ¬((0x8000 + 256 * x + 16 * y + 6) / 4096 = 8 ∧ (0x8000 + 256 * x + 16 * y + 6) % 16 = 5) by omega)]
  rw [if_neg (show ¬((0x8000 + 256 * x + 16 * y + 6) / 4096 = 8 ∧ (0x8000 + 256 * x + 16 * y + 6) % 16 = 7) by omega)]
  rw [if_neg (show ¬((0x8000 + 256 * x + 16 * y + 6) / 4096 = 9 ∧ (0x8000 + 256 * x + 16 * y + 6) % 16 = 0) by omega)]
  rw [if_pos (show (0x8000 + 256 * x + 16 * y + 6) / 4096 = 8 ∧ (0x8000 + 256 * x + 16 * y + 6) % 16 = 6 by omega)]
  rw [hx_arg]

theorem convert_shl (x y : Nat) (hx : x < 16) (hy : y < 16) :
    convert_instruction (0x8000 + 256 * x + 16 * y + 14) = "SHL V" ++ toHex x := by
  have hx_arg : (0x8000 + 256 * x + 16 * y + 14) / 256 % 16 = x := by omega
  unfold convert_instruction
  rw [if_neg (show ¬((0x8000 + 256 * x + 16 * y + 14) = 0x00E0) by omega)]
  rw [if_neg (show ¬((0x8000 + 256 * x + 16 * y + 14) = 0x00EE) by omega)]
  rw [if_neg (show ¬((0x8000 + 256 * x + 16 * y + 14) / 4096 = 0) by omega)]
  rw [if_neg (show ¬((0x8000 + 256 * x + 16 * y + 14) / 4096 = 1) by omega)]
  rw [if_neg (show ¬((0x8000 + 256 * x + 16 * y + 14) / 4096 = 2) by omega)]
  rw [if_neg (show ¬((0x8000 + 256 * x + 16 * y + 14) / 4096 = 0xA) by omega)]
  rw [if_neg (show ¬((0x8000 + 256 * x + 16 * y + 14) / 4096 = 0xB) by omega)]
  rw [if_neg (show ¬((0x8000 + 256 * x + 16 * y + 14) / 4096 = 3) by omega)]
  rw [if_neg (show ¬((0x8000 + 256 * x + 16 * y + 14) / 4096 = 4) by omega)]
  rw [if_neg (show ¬((0x8000 + 256 * x + 16 * y + 14) / 4096 = 6) by omega)]
  rw [if_neg (show ¬((0x8000 + 256 * x + 16 * y + 14) / 4096 = 7) by omega)]
  rw [if_neg (show ¬((0x8000 + 256 * x + 16 * y + 14) / 4096 = 0xC) by omega)]
  rw [if_neg (show ¬((0x8000 + 256 * x + 16 * y + 14) / 4096 = 5 ∧ (0x8000 + 256 * x + 16 * y + 14) % 16 = 0) by omega)]
  rw [if_neg (show ¬((0x8000 + 256 * x + 16 * y + 14) / 4096 = 8 ∧ (0x8000 + 256 * x + 16 * y + 14) % 16 = 0) by omega)]
  rw [if_neg (show ¬((0x8000 + 256 * x + 16 * y + 14) / 4096 = 8 ∧ (0x8000 + 256 * x + 16 * y + 14) % 16 = 1) by omega)]
  rw [if_neg (show ¬((0x8000 + 256 * x + 16 * y + 14) / 4096 = 8 ∧ (0x8000 + 256 * x + 16 * y + 14) % 16 = 2) by omega)]
  rw [if_neg (show ¬((0x8000 + 256 * x + 16 * y + 14) / 4096 = 8 ∧ (0x8000 + 256 * x + 16 * y + 14) % 16 = 3) by omega)]
  rw [if_neg (show ¬((0x8000 + 256 * x + 16 * y + 14) / 4096 = 8 ∧ (0x8000 + 256 * x + 16 * y + 14) % 16 = 4) by omega)]
  rw [if_neg (show ¬((0x8000 + 256 * x + 16 * y + 14) / 4096 = 8 ∧ (0x8000 + 256 * x + 16 * y + 14) % 16 = 5) by omega)]
  rw [if_neg (show ¬((0x8000 + 256 * x + 16 * y + 14) / 4096 = 8 ∧ (0x8000 + 256 * x + 16 * y + 14) % 16 = 7) by omega)]
  rw [if_neg (show ¬((0x8000 + 256 * x + 16 * y + 14) / 4096 = 9 ∧ (0x8000 + 256 * x + 16 * y + 14) % 16 = 0) by omega)]
  rw [if_neg (show ¬((0x8000 + 256 * x + 16 * y + 14) / 4096 = 8 ∧ (0x8000 + 256 * x + 16 * y + 14) % 16 = 6) by omega)]
  rw [if_pos (show (0x8000 + 256 * x + 16 * y + 14) / 4096 = 8 ∧ (0x8000 + 256 * x + 16 * y + 14) % 16 = 0xE by omega)]
  rw [hx_arg]

theorem getD_mem_of_lt (l : List Nat) (i : Nat) (h : i < l.length) : l.getD i 0 ∈ l := by
  rw [List.getD_eq_getElem?_getD, List.getElem?_eq_getElem h]
  simpa using List.getElem_mem h

/-! ## Claim theorems -/

/-- C1: the decoder satisfies the spec's fixed points: `decode(0x00E0) = "CLS"`,
`decode(0x00EE) = "RET"`, `decode(0x1234) = "JP 0x234"`,
`decode(0x6A07) = "LD VA, 0x07"`, `decode(0x8016) = "SHR V0"`,
`decode(0xDAB4) = "DRW VA, VB, 0x4"`, `decode(0xFF65) = "LD VF, [I]"`,
and `decode(0x0FFF) = "SYS 0xFFF"`. -/
theorem claim1_decode_fixed_points :
    convert_instruction 0x00E0 = "CLS" ∧
    convert_instruction 0x00EE = "RET" ∧
    convert_instruction 0x1234 = "JP 0x234" ∧
    convert_instruction 0x6A07 = "LD VA, 0x07" ∧
    convert_instruction 0x8016 = "SHR V0" ∧
    convert_instruction 0xDAB4 = "DRW VA, VB, 0x4" ∧
    convert_instruction 0xFF65 = "LD VF, [I]" ∧
    convert_instruction 0x0FFF = "SYS 0xFFF" :=
  ⟨by decide, by decide, by decide, by decide, by decide, by decide, by decide, by decide⟩

/-- C2: for every byte buffer of even length `2 * n` whose entries are bytes
(`< 256`), framing yields exactly `n` words; word `i` equals
`(byte[2i] << 8) | byte[2i+1]` (words taken in input order, from consecutive
non-overlapping pairs); and splitting word `i` back into its high byte
(`w / 256`) and low byte (`w % 256`) reproduces bytes `2i` and `2i+1`. -/
theorem claim2_frame_roundtrip (bytes : List Nat) (n : Nat)
    (hn : bytes.length = 2 * n) (hbytes : ∀ b ∈ bytes, b < 256) :
    (frame bytes).length = n ∧
    ∀ i, i < n →
      (frame bytes).getD i 0 = (bytes.getD (2 * i) 0) <<< 8 ||| (bytes.getD (2 * i + 1) 0) ∧
      ((frame bytes).getD i 0) / 256 = bytes.getD (2 * i) 0 ∧
      ((frame bytes).getD i 0) % 256 = bytes.getD (2 * i + 1) 0 := by
  constructor
  · rw [frame_length bytes (by omega)]
    omega
  · intro i hi
    have hlt : 2 * i + 1 < bytes.length := by omega
    have hg := frame_getD i bytes hlt
    have hb2 : bytes.getD (2 * i + 1) 0 < 256 :=
      hbytes _ (getD_mem_of_lt bytes (2 * i + 1) hlt)
    have hco := combine_chunk_eq (bytes.getD (2 * i) 0) (bytes.getD (2 * i + 1) 0) hb2
    refine ⟨by rw [hg]; rfl, ?_, ?_⟩
    · rw [hg, hco]
      omega
    · rw [hg, hco]
      omega

/-- Witness for C2 at the concrete buffer `[0x12, 0x34, 0xAB, 0xCD]`. -/
theorem claim2_frame_roundtrip_witness :
    (frame [0x12, 0x34, 0xAB, 0xCD]).length = 2 ∧
    ∀ i, i < 2 →
      (frame [0x12, 0x34, 0xAB, 0xCD]).getD i 0 =
        (([0x12, 0x34, 0xAB, 0xCD] : List Nat).getD (2 * i) 0) <<< 8 |||
          (([0x12, 0x34, 0xAB, 0xCD] : List Nat).getD (2 * i + 1) 0) ∧
      ((frame [0x12, 0x34, 0xAB, 0xCD]).getD i 0) / 256 =
        ([0x12, 0x34, 0xAB, 0xCD] : List Nat).getD (2 * i) 0 ∧
      ((frame [0x12, 0x34, 0xAB, 0xCD]).getD i 0) % 256 =
        ([0x12, 0x34, 0xAB, 0xCD] : List Nat).getD (2 * i + 1) 0 :=
  claim2_frame_roundtrip [0x12, 0x34, 0xAB, 0xCD] 2 (by decide) (by decide)

/-- C3: `disassemble` fails with the `EmptyInput` message exactly on the empty
buffer, fails with the `OddLength` message exactly on non-empty odd-length
buffers, and succeeds on every non-empty even-length buffer; the result type
admits no other failure, and an error carries no output. -/
theorem claim3_disassemble_errors (bytes : List Nat) :
    (disassemble bytes = Except.error emptyInputMsg ↔ bytes = []) ∧
    (disassemble bytes = Except.error oddLengthMsg ↔
      bytes ≠ [] ∧ bytes.length % 2 = 1) ∧
    (bytes ≠ [] → bytes.length % 2 = 0 → ∃ s, disassemble bytes = Except.ok s) := by
  rcases eq_or_ne bytes [] with hnil | hnil
  · subst hnil
    refine ⟨⟨fun _ => rfl, fun _ => disassemble_empty⟩, ⟨?_, ?_⟩, ?_⟩
    · intro h
      rw [disassemble_empty] at h
      exact absurd (Except.error.inj h) emptyInputMsg_ne_oddLengthMsg
    · rintro ⟨hne, _⟩
      exact absurd rfl hne
    · intro hne _
      exact absurd rfl hne
  · rcases Nat.mod_two_eq_zero_or_one bytes.length with hpar | hpar
    · have hok := disassemble_even bytes hnil hpar
      refine ⟨⟨?_, ?_⟩, ⟨?_, ?_⟩, fun _ _ => ⟨_, hok⟩⟩
      · intro h
        rw [hok] at h
        exact Except.noConfusion h
      · intro h
        exact absurd h hnil
      · intro h
        rw [hok] at h
        exact Except.noConfusion h
      · rintro ⟨_, hodd⟩
        omega
    · have herr := disassemble_odd bytes hpar
      refine ⟨⟨?_, ?_⟩, ⟨fun _ => ⟨hnil, hpar⟩, fun _ => herr⟩, ?_⟩
      · intro h
        rw [herr] at h
        exact absurd (Except.error.inj h).symm emptyInputMsg_ne_oddLengthMsg
      · intro h
        exact absurd h hnil
      · intro _ heven
        omega

/-- Witness for C3: the odd-length buffer `[0x00]` produces the
`OddLength` error. -/
theorem claim3_disassemble_errors_witness :
    disassemble [0x00] = Except.error oddLengthMsg :=
  ((claim3_disassemble_errors [0x00]).2.1).mpr ⟨by decide, by decide⟩

/-- C4: the decoder is total on the 16-bit words: every input below 65536
produces a string, and that string is non-empty. -/
theorem claim4_decode_total (inst : Nat) (h : inst < 65536) :
    0 < (convert_instruction inst).length :=
  convert_instruction_length_pos inst

/-- Witness for C4 at `0x1234`. -/
theorem claim4_decode_total_witness : 0 < (convert_instruction 0x1234).length :=
  claim4_decode_total 0x1234 (by decide)

/-- C5 (code bug): the spec's table says `0xFx15` decodes to `LD DT, Vx`
with an uppercase `V`, consistent with every other register rendering, but
the code at src/lib.rs line 264 writes `"LD DT, v"` with a lowercase `v`:
at the failing input `0xFA15` the code produces `"LD DT, vA"`, not
`"LD DT, VA"`. -/
theorem claim5_fx15_lowercase :
    convert_instruction 0xFA15 = "LD DT, vA" ∧
    convert_instruction 0xFA15 ≠ "LD DT, VA" :=
  ⟨by decide, by decide⟩

/-- C6 counterexample: the top-nibble-0 `SYS` pattern is not mutually
exclusive with the exact match `0x00E0`: a decoder testing `SYS` first
yields `"SYS 0x0E0"` at `0x00E0`, where `decode` yields `"CLS"`. -/
theorem claim6_counterexample :
    convert_instruction 0x00E0 = "CLS" ∧
    convert_instruction_alt 0x00E0 = "SYS 0x0E0" ∧
    convert_instruction_alt 0x00E0 ≠ convert_instruction 0x00E0 :=
  ⟨by decide, by decide, by decide⟩

/-- C6 amended: the patterns are mutually exclusive except that the
top-nibble-0 `SYS` pattern overlaps the exact words `0x00E0` and `0x00EE`;
a decoder that tests the `SYS` pattern before the exact matches agrees with
`decode` on every word other than those two. -/
theorem claim6_alt_agrees_off_exact (inst : Nat)
    (h1 : inst ≠ 0x00E0) (h2 : inst ≠ 0x00EE) :
    convert_instruction_alt inst = convert_instruction inst :=
  convert_alt_agrees inst h1 h2

/-- Witness for the amended C6 at `0x1234`. -/
theorem claim6_alt_agrees_off_exact_witness :
    convert_instruction_alt 0x1234 = convert_instruction 0x1234 :=
  claim6_alt_agrees_off_exact 0x1234 (by decide) (by decide)

/-- C7: the pipeline on `[0x00, 0xE0, 0x00, 0xEE]` yields exactly
`"CLS\nRET\n"`, and in general the successful output is the decode of each
framed word in input order, each followed by a line terminator (including
the final line). -/
theorem claim7_end_to_end :
    disassemble [0x00, 0xE0, 0x00, 0xEE] = Except.ok "CLS\nRET\n" ∧
    ∀ (bytes : List Nat), bytes ≠ [] → bytes.length % 2 = 0 →
      disassemble bytes = Except.ok (String.join ((frame bytes).map
        (fun w => convert_instruction w ++ "\n"))) := by
  constructor
  · rfl
  · intro bytes hne hpar
    rw [disassemble_even bytes hne hpar, foldl_push_join, empty_append_str, List.map_map]
    rfl

/-- Witness for C7's general clause at `[0x12, 0x34]`. -/
theorem claim7_end_to_end_witness :
    disassemble [0x12, 0x34] = Except.ok (String.join ((frame [0x12, 0x34]).map
      (fun w => convert_instruction w ++ "\n"))) :=
  claim7_end_to_end.2 [0x12, 0x34] (by decide) (by decide)

/-- C8: for the words with top nibble 8, register `x` in bits 11-8, any `y`
in bits 7-4 and bottom nibble 6 (respectively E), the decode is
`"SHR Vx"` (respectively `"SHL Vx"`) independent of `y` — the second
register operand never appears in the output. -/
theorem claim8_shift_ignores_y (x y1 y2 : Nat)
    (hx : x < 16) (hy1 : y1 < 16) (hy2 : y2 < 16) :
    convert_instruction (0x8000 + 256 * x + 16 * y1 + 6)
      = convert_instruction (0x8000 + 256 * x + 16 * y2 + 6) ∧
    convert_instruction (0x8000 + 256 * x + 16 * y1 + 6) = "SHR V" ++ toHex x ∧
    convert_instruction (0x8000 + 256 * x + 16 * y1 + 0xE)
      = convert_instruction (0x8000 + 256 * x + 16 * y2 + 0xE) ∧
    convert_instruction (0x8000 + 256 * x + 16 * y1 + 0xE) = "SHL V" ++ toHex x := by
  refine ⟨?_, convert_shr x y1 hx hy1, ?_, convert_shl x y1 hx hy1⟩
  · rw [convert_shr x y1 hx hy1, convert_shr x y2 hx hy2]
  · rw [convert_shl x y1 hx hy1, convert_shl x y2 hx hy2]

/-- Witness for C8 at `x = 10, y1 = 1, y2 = 11` (words `0x8A16`/`0x8AB6`
and `0x8A1E`/`0x8ABE`). -/
theorem claim8_shift_ignores_y_witness :
    convert_instruction (0x8000 + 256 * 10 + 16 * 1 + 6)
      = convert_instruction (0x8000 + 256 * 10 + 16 * 11 + 6) ∧
    convert_instruction (0x8000 + 256 * 10 + 16 * 1 + 6) = "SHR V" ++ toHex 10 ∧
    convert_instruction (0x8000 + 256 * 10 + 16 * 1 + 0xE)
      = convert_instruction (0x8000 + 256 * 10 + 16 * 11 + 0xE) ∧
    convert_instruction (0x8000 + 256 * 10 + 16 * 1 + 0xE) = "SHL V" ++ toHex 10 :=
  claim8_shift_ignores_y 10 1 11 (by decide) (by decide) (by decide)

/-- C9: the guard chain of `convert_instruction` reaches the final fallback
exactly on the set described by the claim (`reachesFallback` is the
conjunction of the negated guards in source order, `isFallbackSpec` the
claim's characterisation), and on that set the output is the fixed `"0x"`
marking prefix followed by the word's value zero-padded to 4 uppercase hex
digits (total length 6). -/
theorem claim9_fallback (inst : Nat) (h : inst < 65536) :
    (reachesFallback inst ↔ isFallbackSpec inst) ∧
    (reachesFallback inst →
      convert_instruction inst = "0x" ++ padHex 4 inst ∧
      (convert_instruction inst).length = 6) := by
  refine ⟨reachesFallback_iff_isFallbackSpec inst h, fun hr => ⟨convert_instruction_of_reachesFallback inst hr, ?_⟩⟩
  rw [convert_instruction_of_reachesFallback inst hr, length_append,
    padHex_length 4 inst (hexChars_length_le inst h)]
  rfl

/-- Witness for C9 at `0x5001` (top nibble 5, nonzero bottom nibble). -/
theorem claim9_fallback_witness :
    (reachesFallback 0x5001 ↔ isFallbackSpec 0x5001) ∧
    (reachesFallback 0x5001 →
      convert_instruction 0x5001 = "0x" ++ padHex 4 0x5001 ∧
      (convert_instruction 0x5001).length = 6) :=
  claim9_fallback 0x5001 (by decide)

/-- C10: the decoder's output never contains a newline; hence the output
document of a successful run on a `len`-byte input contains exactly one
newline per framed word (`len / 2` newline characters), and splitting that
document on newlines yields exactly the decoded mnemonic lines in input
order, followed by the one empty field after the trailing terminator. -/
theorem claim10_newlines :
    (∀ inst : Nat, inst < 65536 → Char.ofNat 10 ∉ (convert_instruction inst).data) ∧
    (∀ (bytes : List Nat), bytes ≠ [] → bytes.length % 2 = 0 → ∀ s,
      disassemble bytes = Except.ok s →
      s.data.count (Char.ofNat 10) = bytes.length / 2) ∧
    (∀ (bytes : List Nat), bytes ≠ [] → bytes.length % 2 = 0 → ∀ s,
      disassemble bytes = Except.ok s →
      s.splitOn "\n" = (frame bytes).map convert_instruction ++ [""]) := by
  refine ⟨?_, ?_, ?_⟩
  · intro inst _
    exact convert_instruction_no_newline inst
  · intro bytes hne hpar s hs
    rw [disassemble_even bytes hne hpar] at hs
    have hs' : s = ((frame bytes).map convert_instruction).foldl
        (fun acc inst => (acc ++ inst).push (Char.ofNat 10)) "" := (Except.ok.inj hs).symm
    rw [hs', count_foldl_push _ ?_ ""]
    · rw [List.length_map, frame_length bytes hpar]
      have h0 : List.count (Char.ofNat 10) ("" : String).data = 0 := by decide
      omega
    · intro t ht
      rcases List.mem_map.mp ht with ⟨w, _, rfl⟩
      exact convert_instruction_no_newline w
  · intro bytes hne hpar s hs
    rw [disassemble_even bytes hne hpar] at hs
    have hs' : s = ((frame bytes).map convert_instruction).foldl
        (fun acc inst => (acc ++ inst).push (Char.ofNat 10)) "" := (Except.ok.inj hs).symm
    rw [hs', foldl_push_join, empty_append_str]
    exact splitOn_join_newline _ (by
      intro t ht
      rcases List.mem_map.mp ht with ⟨w, _, rfl⟩
      exact convert_instruction_no_newline w)

/-- Witness for C10 at `0x00E0` (first clause) and at the concrete run on
`[0x00, 0xE0, 0x00, 0xEE]`, whose output `"CLS\nRET\n"` splits into
`["CLS", "RET", ""]` (third clause). -/
theorem claim10_newlines_witness :
    Char.ofNat 10 ∉ (convert_instruction 0x00E0).data ∧
    ("CLS\nRET\n" : String).splitOn "\n"
      = (frame [0x00, 0xE0, 0x00, 0xEE]).map convert_instruction ++ [""] :=
  ⟨claim10_newlines.1 0x00E0 (by decide),
   claim10_newlines.2.2 [0x00, 0xE0, 0x00, 0xEE] (by decide) (by decide) "CLS\nRET\n" rfl⟩

